import Mathlib

/-
  Verification of the oakley-finance resilience layer.

  Shallow embedding of the Python sources:
    - oakley_finance/alerts.py            (alert store and one-shot evaluation engine)
    - oakley_finance/common/formatting.py (output truncation)
    - oakley_finance/daily_briefing.py    (section orchestrator)
    - oakley_finance/market_data.py       (cached ticker fetch with stale fallback)

  Python floats are modelled as rationals (ℚ); the comparisons the code performs
  are exact in both. Python dicts produced by the add-functions are modelled as
  an Alert structure. Upstream I/O (yfinance, RSS) sits behind explicit
  environment records, matching the Fetch Adapter boundary of the design.
-/

namespace OakleyFinance

/- ### oakley_finance/alerts.py — data model -/

/-- Record returned by market_data.get_stock, as consumed by check_alerts:
`data["price"]` is read unconditionally, `change_pct` is read with
`data.get("change_pct", 0)` and so may be absent. -/
structure StockData where
  price : Rat
  change_pct : Option Rat
deriving DecidableEq

/-- News item as consumed by check_alerts (`m["title"]`). -/
structure NewsItem where
  title : String
deriving DecidableEq

/-- Upstream environment for one check cycle: market_data.get_stock,
news_scanner.scan_for_keywords (with limit 3), and now_aedt().isoformat(). -/
structure Env where
  getStock : String → Option StockData
  scanNews : List String → List NewsItem
  now : String

/-- One persisted alert record (alerts.json entry). Fields unused by a given
kind keep their defaults, mirroring keys absent from the Python dict. -/
structure Alert where
  id : Int
  type : String
  symbol : String := ""
  condition : String := ""
  target : Rat := 0
  threshold_pct : Rat := 0
  keywords : List String := []
  created : String := ""
  triggered : Bool := false
  trigger_time : Option String := none
  trigger_price : Option Rat := none
  trigger_change_pct : Option Rat := none
  matched_headlines : Option (List String) := none
deriving DecidableEq

/- ### oakley_finance/alerts.py — operations.
The persisted collection (alerts.json) is passed and returned explicitly:
`_load_alerts()` is the input list, `_save_alerts(x)` is the returned list. -/

/-- alerts.py `_next_id`: 1 on an empty collection, else max id + 1. -/
def _next_id (alerts : List Alert) : Int :=
  match alerts.map (fun a => a.id) with
  | [] => 1
  | i :: is => (is.foldl max i) + 1

/-- alerts.py `add_price_alert`. Returns the new stored collection and the
message. The Python number rendering of format_price is abstracted to
`toString`; no claim depends on it. -/
def format_price (value : Rat) : String :=
  toString value

def invalid_condition_msg : String :=
  "Condition must be \x27above\x27 or \x27below\x27"

def add_price_alert (symbol condition : String) (target : Rat) (now : String)
    (store : List Alert) : List Alert × String :=
  if ¬(condition = "above" ∨ condition = "below") then
    (store, invalid_condition_msg)
  else
    let alert : Alert :=
      { id := _next_id store
        type := "price"
        symbol := symbol.toUpper
        condition := condition
        target := target
        created := now
        triggered := false }
    (store ++ [alert],
      "Alert #" ++ toString alert.id ++ ": Notify when " ++ symbol.toUpper
        ++ " goes " ++ condition ++ " " ++ format_price target)

/-- alerts.py `remove_alert`: pops the first record whose id matches and saves;
otherwise leaves the collection untouched and reports a miss. -/
def remove_alert (alert_id : Int) (store : List Alert) : List Alert × String :=
  match store with
  | [] => ([], "Alert #" ++ toString alert_id ++ " not found")
  | a :: rest =>
    if a.id = alert_id then (rest, "Removed alert #" ++ toString alert_id)
    else
      let r := remove_alert alert_id rest
      (a :: r.fst, r.snd)

/-- Body of the check_alerts loop (alerts.py lines 111-146) for one alert:
returns the (possibly mutated) alert and whether it was appended to the
triggered list. `none` models the KeyError raised by the direct indexing
`data["change_pct"]` when that key is absent. -/
def checkOne (env : Env) (alert : Alert) : Option (Alert × Bool) :=
  if alert.triggered then some (alert, false)
  else if alert.type = "price" then
    match env.getStock alert.symbol with
    | none => some (alert, false)
    | some data =>
      if alert.condition = "above" ∧ data.price ≥ alert.target then
        some ({ alert with
                  triggered := true
                  trigger_time := some env.now
                  trigger_price := some data.price }, true)
      else if alert.condition = "below" ∧ data.price ≤ alert.target then
        some ({ alert with
                  triggered := true
                  trigger_time := some env.now
                  trigger_price := some data.price }, true)
      else some (alert, false)
  else if alert.type = "volatility" then
    match env.getStock alert.symbol with
    | none => some (alert, false)
    | some data =>
      if |data.change_pct.getD 0| ≥ alert.threshold_pct then
        match data.change_pct with
        | none => none
        | some c =>
          some ({ alert with
                    triggered := true
                    trigger_time := some env.now
                    trigger_change_pct := some c }, true)
      else some (alert, false)
  else if alert.type = "news" then
    let ms := env.scanNews alert.keywords
    if ms.isEmpty then some (alert, false)
    else
      some ({ alert with
                triggered := true
                trigger_time := some env.now
                matched_headlines := some ((ms.take 3).map (fun m => m.title)) }, true)
  else some (alert, false)

/-- The check_alerts loop over the persisted collection, accumulating the
triggered list in processing order; `none` models an uncaught exception
(the batch save at line 148 then never runs). -/
def checkLoop (env : Env) : List Alert → Option (List Alert × List Alert)
  | [] => some ([], [])
  | a :: rest =>
    match checkOne env a with
    | none => none
    | some (a2, fl) =>
      match checkLoop env rest with
      | none => none
      | some (s, t) => some (a2 :: s, if fl then a2 :: t else t)

/-- alerts.py `check_alerts`: result is (collection passed to the single
`_save_alerts` call at line 148, returned triggered list). -/
def check_alerts (env : Env) (store : List Alert) : Option (List Alert × List Alert) :=
  checkLoop env store

/-- Trace of `_save_alerts` calls made by one check_alerts run: the source
performs exactly one batch write, after the loop, on normal completion. -/
def check_alerts_writes (env : Env) (store : List Alert) : List (List Alert) :=
  match checkLoop env store with
  | none => []
  | some (s, _) => [s]

/-- The alerts of `new` whose paired alert in `old` was pending and are now
triggered: the pending→triggered transitions of one batch. -/
def transitioned (old new : List Alert) : List Alert :=
  (old.zip new).filterMap
    (fun p => if p.1.triggered = false ∧ p.2.triggered = true then some p.2 else none)

/- ### Concrete sample data for witnesses -/

def stockUp : StockData := { price := 101, change_pct := some 1 }

def stockAt100 : StockData := { price := 100, change_pct := some (-5) }

def stockNoChange : StockData := { price := 1, change_pct := none }

/-- Environment in which AAPL trades at 101 (up 1%) and no news matches. -/
def envUp : Env :=
  { getStock := fun s => if s = "AAPL" then some stockUp else none
    scanNews := fun _ => []
    now := "2026-01-01T09:00:00" }

/-- Environment in which AAPL trades exactly at 100, down exactly 5%. -/
def envAt100 : Env :=
  { getStock := fun s => if s = "AAPL" then some stockAt100 else none
    scanNews := fun _ => []
    now := "2026-01-01T09:00:00" }

/-- Environment whose fetches return no data and whose news scan is empty. -/
def envAbsent : Env :=
  { getStock := fun _ => none
    scanNews := fun _ => []
    now := "2026-01-01T09:00:00" }

/-- Environment whose stock record lacks the change_pct field. -/
def envNoChange : Env :=
  { getStock := fun s => if s = "AAPL" then some stockNoChange else none
    scanNews := fun _ => []
    now := "2026-01-01T09:00:00" }

def alertAbove : Alert :=
  { id := 1
    type := "price"
    symbol := "AAPL"
    condition := "above"
    target := 100 }

def alertBelow : Alert :=
  { id := 2
    type := "price"
    symbol := "AAPL"
    condition := "below"
    target := 100 }

def alertVol : Alert :=
  { id := 3
    type := "volatility"
    symbol := "AAPL"
    threshold_pct := 5 }

def alertNews : Alert :=
  { id := 4
    type := "news"
    keywords := ["RBA"] }

/-- alertAbove after triggering against envUp. -/
def alertAboveT : Alert :=
  { alertAbove with
      triggered := true
      trigger_time := some ("2026-01-01T09:00:00")
      trigger_price := some 101 }

/-- The relevant data source reports nothing for this alert: the stock fetch
returns absent for price and volatility alerts, the keyword scan matches
nothing for news alerts. -/
def dataAbsent (env : Env) (a : Alert) : Prop :=
  ((a.type = "price" ∨ a.type = "volatility") ∧ env.getStock a.symbol = none) ∨
  (a.type = "news" ∧ env.scanNews a.keywords = [])

/- ### oakley_finance/common/formatting.py — truncation -/

/-- config.py TELEGRAM_MAX_LENGTH. -/
def telegram_max_length : Nat := 4096

/-- The marker appended after truncation: a blank line and "... (truncated)". -/
def truncation_marker : String := "\n\n... (truncated)"

/-- Python slicing s[:k] over a character list, including the negative-index
case (k < 0 keeps all but the last −k characters). -/
def pySliceTo (l : List Char) (k : Int) : List Char :=
  if 0 ≤ k then l.take k.toNat else l.take (l.length - (-k).toNat)

/-- Python str.rfind for a newline: highest index of a newline character,
−1 when there is none. -/
def rfindNewline : List Char → Int
  | [] => -1
  | c :: rest =>
    if 0 ≤ rfindNewline rest then rfindNewline rest + 1
    else if c = '\n' then 0 else -1

/-- formatting.py `truncate_for_telegram`. Text within the limit is returned
unchanged; otherwise the first max_length − 30 characters are kept, cut back
to the last newline when that newline sits past max_length // 2, and the
truncation marker is appended. (The source defaults max_length to
Config.telegram_max_length.) -/
def truncate_for_telegram (text : String) (max_length : Nat) : String :=
  if text.length ≤ max_length then text
  else
    let truncated := pySliceTo text.toList ((max_length : Int) - 30)
    let last_newline := rfindNewline truncated
    let kept := if ((max_length / 2 : Nat) : Int) < last_newline
      then pySliceTo truncated last_newline else truncated
    String.mk kept ++ truncation_marker

/-- Python str.strip() over a character list: leading and trailing whitespace
removed. -/
def pyStrip (l : List Char) : List Char :=
  ((l.dropWhile Char.isWhitespace).reverse.dropWhile Char.isWhitespace).reverse

/-- A 4097-character single-line text: one character over the default limit,
containing no newline. -/
def longLine : String := String.mk (List.replicate 4097 'a')

/- ### oakley_finance/daily_briefing.py — section orchestrator -/

/-- daily_briefing.py SECTION_TIMEOUT (seconds per section). -/
def SECTION_TIMEOUT : Nat := 20

deriving instance DecidableEq for Except

/-- Observable behaviour of one section builder invocation: how many seconds
it runs (none = it never terminates) and whether it raises (with the
exception message) or returns a string. -/
structure BuilderBehavior where
  cost : Option Nat
  outcome : Except String String
deriving DecidableEq

/-- daily_briefing.py `_run_section` result, under CPython semantics of lines
136-146: `future.result(timeout=SECTION_TIMEOUT)` delivers the value of the builder or exception when it finishes within the timeout ("[name unavailable:
e]" for an exception, via the `except Exception` arm); past the timeout a
TimeoutError is converted to "[name timed out]". A builder that never
terminates leaves `_run_section` blocked forever (`none`): the exit of the `with`
block runs `ThreadPoolExecutor.shutdown(wait=True)`, joining the worker thread
before `_run_section` can return. -/
def run_section (name : String) (b : BuilderBehavior) : Option String :=
  match b.cost with
  | none => none
  | some c =>
    if c ≤ SECTION_TIMEOUT then
      match b.outcome with
      | Except.ok v => some v
      | Except.error e => some ("[" ++ name ++ " unavailable: " ++ e ++ "]")
    else some ("[" ++ name ++ " timed out]")

/-- Caller-observed wall time of one `_run_section` call, in seconds, under
the same CPython semantics: even when `future.result` raises TimeoutError at
SECTION_TIMEOUT, the `with` block exit calls `shutdown(wait=True)`, which
blocks until the already-running builder finishes — so the elapsed time is
the full running time of the builder, unbounded by SECTION_TIMEOUT, and `none`
(never returns) for a non-terminating builder. -/
def run_section_elapsed (b : BuilderBehavior) : Option Nat :=
  b.cost

/-- The section-collection loop of build_briefing (lines 168-172), over the
ordered builder list: each section is run in registration order and appended
when its content is non-empty after str.strip(). `none` when some builder
never returns. -/
def briefing_sections : List (String × BuilderBehavior) → Option (List String)
  | [] => some []
  | (n, b) :: rest =>
    match run_section n b with
    | none => none
    | some r =>
      match briefing_sections rest with
      | none => none
      | some s => some (if (pyStrip r.toList).isEmpty then s else r :: s)

/-- daily_briefing.py `build_briefing` over a builder list: header, separator
line of = signs, sections joined by blank lines, then one final truncation at
the default limit. -/
def build_briefing (header : String) (builders : List (String × BuilderBehavior)) :
    Option String :=
  match briefing_sections builders with
  | none => none
  | some secs =>
    some (truncate_for_telegram
      (header ++ "\n" ++ String.mk (List.replicate header.length '=') ++ "\n\n"
        ++ String.intercalate ("\n\n") secs)
      telegram_max_length)

/-- Sample builder list: one always throws, one runs past the timeout, one
returns DATA, one returns empty content. -/
def buildersSample : List (String × BuilderBehavior) :=
  [("Forex", ⟨some 1, Except.error ("boom")⟩),
   ("Indices", ⟨some 60, Except.ok ("slow")⟩),
   ("News", ⟨some 1, Except.ok ("DATA")⟩),
   ("Calendar", ⟨some 1, Except.ok ("")⟩)]

/- ### oakley_finance/market_data.py — cached ticker fetch -/

/-- config.py CACHE_TTL["market_data"] (seconds). -/
def market_data_ttl : Nat := 300

/-- config.py STALE_CACHE_MAX_AGE (seconds). -/
def stale_cache_max_age : Nat := 86400

/-- One row of the price history returned by the upstream adapter
(ticker.history): the columns _fetch_ticker reads. -/
structure Bar where
  close : Rat
  high : Rat
  low : Rat
  volume : Int
deriving DecidableEq

/-- The record _fetch_ticker builds and caches. -/
structure StockRecord where
  symbol : String
  price : Rat
  previous_close : Rat
  change_pct : Rat
  high : Rat
  low : Rat
  volume : Int
deriving DecidableEq

/-- Modelled from the spec: the persisted state of the "market_data" FileCache
namespace (oakley_finance/common/cache.py is not under src/). Each key maps
to a stored value and its written_at timestamp; at most one live value per
key, full replacement on write (§3 CacheEntry). -/
structure CacheState where
  entries : String → Option (StockRecord × Nat)

/-- Modelled from the spec: `FileCache.get(key, ttl)` returns the stored value
only if now − written_at ≤ max_age, otherwise reports absent even if a value
exists (§4.1). -/
def cache_get (c : CacheState) (now : Nat) (key : String) (max_age : Nat) :
    Option StockRecord :=
  match c.entries key with
  | none => none
  | some (v, written_at) => if now - written_at ≤ max_age then some v else none

/-- Modelled from the spec: `FileCache.set(key, value)` persists the value
with written_at = now, replacing any prior entry for the same key (§4.1). -/
def cache_set (c : CacheState) (now : Nat) (key : String) (v : StockRecord) :
    CacheState :=
  ⟨fun k => if k = key then some (v, now) else c.entries k⟩

/-- Upstream boundary of _fetch_ticker: `yf.Ticker(symbol).history(period)`
either raises (error) or returns the history rows; plus the current time. -/
structure FetchEnv where
  upstream : String → String → Except Unit (List Bar)
  now : Nat

/-- market_data.py `_fetch_ticker`: serve a fresh cache hit; otherwise fetch
live — an empty history returns absent (no stale fallback on this path); a
successful fetch builds the record, caches it and returns it; an exception
falls back to the cache under the stale maximum age. The rate limiter only
delays the call and is not modelled. Result: (returned record or absent,
cache state afterwards). -/
def _fetch_ticker (env : FetchEnv) (cache : CacheState) (symbol period : String) :
    Option StockRecord × CacheState :=
  let cache_key := symbol ++ "_" ++ period
  match cache_get cache env.now cache_key market_data_ttl with
  | some cached => (some cached, cache)
  | none =>
    match env.upstream symbol period with
    | Except.error _ => (cache_get cache env.now cache_key stale_cache_max_age, cache)
    | Except.ok hist =>
      match hist.getLast? with
      | none => (none, cache)
      | some last =>
        let prev := if hist.length > 1 then hist.getD (hist.length - 2) last
          else hist.headD last
        let change_pct : Rat := if prev.close ≠ 0
          then ((last.close - prev.close) / prev.close) * 100 else 0
        let result : StockRecord :=
          { symbol := symbol
            price := last.close
            previous_close := prev.close
            change_pct := change_pct
            high := last.high
            low := last.low
            volume := if last.volume = 0 then 0 else last.volume }
        (some result, cache_set cache env.now cache_key result)

/-- A cached AAPL record written at time 0. -/
def sampleRecord : StockRecord :=
  { symbol := "AAPL"
    price := 100
    previous_close := 99
    change_pct := 1
    high := 101
    low := 98
    volume := 5 }

/-- Cache holding only the AAPL_5d entry, written at time 0. -/
def cacheAAPL : CacheState :=
  ⟨fun k => if k = "AAPL_5d" then some (sampleRecord, 0) else none⟩

/-- Environment at time 1000 whose upstream returns an empty history. -/
def envEmptyHist : FetchEnv :=
  { upstream := fun _ _ => Except.ok []
    now := 1000 }

/-- Environment at time 1000 whose upstream raises. -/
def envRaise : FetchEnv :=
  { upstream := fun _ _ => Except.error ()
    now := 1000 }

/- ### Helper lemmas about the evaluation engine -/

/-- An already-triggered alert is skipped: the loop body leaves it unchanged
and does not report it, whatever the upstream data. -/
theorem checkOne_of_triggered (env : Env) (a : Alert) (h : a.triggered = true) :
    checkOne env a = some (a, false) := by
  unfold checkOne
  simp [h]

/-- Case analysis on one loop-body step: a false flag means the alert was left
untouched; a true flag means a pending alert became triggered. -/
theorem checkOne_cases (env : Env) (a a2 : Alert) (fl : Bool)
    (h : checkOne env a = some (a2, fl)) :
    (fl = false → a2 = a) ∧ (fl = true → a.triggered = false ∧ a2.triggered = true) := by
  unfold checkOne at h
  repeat' split at h
  all_goals simp_all
  all_goals try (split at h)
  all_goals try simp_all
  all_goals (obtain ⟨h1, h2⟩ := h; subst h1; rfl)

/-- The reported flag is exactly the pending→triggered transition test. -/
theorem checkOne_flag (env : Env) (a a2 : Alert) (fl : Bool)
    (h : checkOne env a = some (a2, fl)) :
    fl = (!a.triggered && a2.triggered) := by
  have hc := checkOne_cases env a a2 fl h
  cases fl with
  | false =>
    have ha := hc.1 rfl
    rw [ha]
    cases h2 : a.triggered <;> simp [h2]
  | true =>
    have ha := hc.2 rfl
    simp [ha.1, ha.2]

/-- Every alert in the saved collection of a completed run is a fixed point of
the loop body: re-running the engine leaves it unchanged. -/
theorem checkLoop_post (env : Env) (l s t : List Alert)
    (h : checkLoop env l = some (s, t)) :
    ∀ x ∈ s, checkOne env x = some (x, false) := by
  induction l generalizing s t with
  | nil =>
    simp only [checkLoop, Option.some.injEq, Prod.mk.injEq] at h
    obtain ⟨rfl, rfl⟩ := h
    simp
  | cons a rest ih =>
    unfold checkLoop at h
    split at h
    · exact absurd h (by simp)
    · rename_i a2 fl hone
      split at h
      · exact absurd h (by simp)
      · rename_i s0 t0 hrest
        simp only [Option.some.injEq, Prod.mk.injEq] at h
        obtain ⟨hs, _⟩ := h
        subst hs
        intro x hx
        rcases List.mem_cons.mp hx with hx | hx
        · subst hx
          have hc := checkOne_cases env a x fl hone
          cases fl with
          | false => rw [hc.1 rfl]; rw [hc.1 rfl] at hone; exact hone
          | true => exact checkOne_of_triggered env x (hc.2 rfl).2
        · exact ih s0 t0 hrest x hx

/-- Every alert in the returned triggered list of a completed run is marked
triggered. -/
theorem checkLoop_trig (env : Env) (l s t : List Alert)
    (h : checkLoop env l = some (s, t)) :
    ∀ x ∈ t, x.triggered = true := by
  induction l generalizing s t with
  | nil =>
    simp only [checkLoop, Option.some.injEq, Prod.mk.injEq] at h
    obtain ⟨rfl, rfl⟩ := h
    simp
  | cons a rest ih =>
    unfold checkLoop at h
    split at h
    · exact absurd h (by simp)
    · rename_i a2 fl hone
      split at h
      · exact absurd h (by simp)
      · rename_i s0 t0 hrest
        simp only [Option.some.injEq, Prod.mk.injEq] at h
        obtain ⟨_, ht⟩ := h
        subst ht
        intro x hx
        cases fl with
        | false => exact ih s0 t0 hrest x hx
        | true =>
          rcases List.mem_cons.mp hx with hx | hx
          · subst hx
            exact ((checkOne_cases env a x true hone).2 rfl).2
          · exact ih s0 t0 hrest x hx

/-- A collection of loop-body fixed points passes through the engine
untouched, with an empty triggered list. -/
theorem checkLoop_stable (env : Env) (l : List Alert)
    (h : ∀ x ∈ l, checkOne env x = some (x, false)) :
    checkLoop env l = some (l, []) := by
  induction l with
  | nil => rfl
  | cons a rest ih =>
    have ha := h a (by simp)
    have hrest := ih (fun x hx => h x (by simp [hx]))
    simp [checkLoop, ha, hrest]

/-- One processed batch, elementwise: each stored alert is checked, in
persisted order, and the triggered list is exactly the pending→triggered
transitions of the batch, in that order. -/
theorem checkLoop_batch (env : Env) (l s t : List Alert)
    (h : checkLoop env l = some (s, t)) :
    List.Forall₂ (fun a a2 => ∃ fl, checkOne env a = some (a2, fl)) l s ∧
    t = transitioned l s := by
  induction l generalizing s t with
  | nil =>
    simp only [checkLoop, Option.some.injEq, Prod.mk.injEq] at h
    obtain ⟨rfl, rfl⟩ := h
    exact ⟨List.Forall₂.nil, rfl⟩
  | cons a rest ih =>
    unfold checkLoop at h
    split at h
    · exact absurd h (by simp)
    · rename_i a2 fl hone
      split at h
      · exact absurd h (by simp)
      · rename_i s0 t0 hrest
        simp only [Option.some.injEq, Prod.mk.injEq] at h
        obtain ⟨hs, ht⟩ := h
        subst hs
        subst ht
        obtain ⟨hf2, htr⟩ := ih s0 t0 hrest
        refine ⟨List.Forall₂.cons ⟨fl, hone⟩ hf2, ?_⟩
        rw [checkOne_flag env a a2 fl hone, htr]
        by_cases hp : a.triggered = false ∧ a2.triggered = true
        · have hb : (!a.triggered && a2.triggered) = true := by simp [hp.1, hp.2]
          simp [transitioned, List.filterMap_cons, hb, hp]
        · have hb : (!a.triggered && a2.triggered) = false := by
            cases u : a.triggered <;> cases v : a2.triggered <;> simp_all
          simp [transitioned, List.filterMap_cons, hb, hp]

/- ### Claim theorems: alert engine -/

/-- Claim C1: one-shot trigger idempotence. For a persisted collection and
unchanged upstream data, every alert returned by the first check_alerts run
is marked triggered in the saved collection, is skipped (left unchanged,
whatever the upstream data) by any later run, and the trigger list returned by the second run is empty, so no alert triggers twice. -/
theorem check_alerts_idempotent (env : Env) (store s1 t1 s2 t2 : List Alert)
    (h1 : check_alerts env store = some (s1, t1))
    (h2 : check_alerts env s1 = some (s2, t2)) :
    (∀ a ∈ t1, a.triggered = true) ∧
    (∀ a ∈ t1, ∀ env2 : Env, checkOne env2 a = some (a, false)) ∧
    t2 = [] ∧ (∀ a ∈ t1, a ∉ t2) := by
  have htrig : ∀ a ∈ t1, a.triggered = true := by
    intro a ha
    have := checkLoop_trig env store s1 t1 h1
    exact this a (by
      have hmem : ∀ x ∈ t1, x ∈ t1 := fun x hx => hx
      exact ha)
  have hpost := checkLoop_post env store s1 t1 h1
  have hstable := checkLoop_stable env s1 hpost
  unfold check_alerts at h2
  rw [hstable] at h2
  simp only [Option.some.injEq, Prod.mk.injEq] at h2
  obtain ⟨-, ht2⟩ := h2
  refine ⟨htrig, ?_, ht2.symm, ?_⟩
  · intro a ha env2
    exact checkOne_of_triggered env2 a (htrig a ha)
  · intro a _
    rw [← ht2]
    simp

/-- Witness for C1: a pending price alert triggers on the first run; the
second run over the saved collection returns nothing and changes nothing. -/
theorem check_alerts_idempotent_witness :
    check_alerts envUp [alertAbove] = some ([alertAboveT], [alertAboveT]) ∧
    check_alerts envUp [alertAboveT] = some ([alertAboveT], []) ∧
    ((∀ a ∈ [alertAboveT], a.triggered = true) ∧
     (∀ a ∈ [alertAboveT], ∀ env2 : Env, checkOne env2 a = some (a, false)) ∧
     ([] : List Alert) = [] ∧ (∀ a ∈ [alertAboveT], a ∉ ([] : List Alert))) :=
  ⟨by decide, by decide,
    check_alerts_idempotent envUp [alertAbove] [alertAboveT] [alertAboveT] [alertAboveT] []
      (by decide) (by decide)⟩

/-- Claim C5: batch persistence and exact trigger return. A completed
check_alerts run performs exactly one durable write, whose content is the
collection with every alert processed in persisted order, and returns exactly
the alerts that transitioned from pending to triggered in this run. -/
theorem check_alerts_batch_persistence (env : Env) (store s2 t : List Alert)
    (h : check_alerts env store = some (s2, t)) :
    check_alerts_writes env store = [s2] ∧
    List.Forall₂ (fun a a2 => ∃ fl, checkOne env a = some (a2, fl)) store s2 ∧
    t = transitioned store s2 := by
  unfold check_alerts at h
  refine ⟨?_, (checkLoop_batch env store s2 t h).1, (checkLoop_batch env store s2 t h).2⟩
  unfold check_alerts_writes
  rw [h]

/-- Witness for C5 at a one-alert collection that triggers. -/
theorem check_alerts_batch_persistence_witness :
    check_alerts envUp [alertAbove] = some ([alertAboveT], [alertAboveT]) ∧
    (check_alerts_writes envUp [alertAbove] = [[alertAboveT]] ∧
     List.Forall₂ (fun a a2 => ∃ fl, checkOne envUp a = some (a2, fl)) [alertAbove] [alertAboveT] ∧
     [alertAboveT] = transitioned [alertAbove] [alertAboveT]) :=
  ⟨by decide,
    check_alerts_batch_persistence envUp [alertAbove] [alertAboveT] [alertAboveT] (by decide)⟩

/-- Claim C7: inclusive trigger boundaries. For a pending alert whose fetch
succeeds, condition above triggers exactly when price ≥ target, condition
below exactly when price ≤ target, and a volatility alert with the change
field present triggers exactly when |change_pct| ≥ threshold_pct. -/
theorem trigger_boundaries_inclusive (env : Env) (a : Alert) (d : StockData)
    (hp : a.triggered = false) (hd : env.getStock a.symbol = some d) :
    (a.type = "price" → a.condition = "above" →
      (((checkOne env a).map (fun r => r.2) = some true) ↔ d.price ≥ a.target)) ∧
    (a.type = "price" → a.condition = "below" →
      (((checkOne env a).map (fun r => r.2) = some true) ↔ d.price ≤ a.target)) ∧
    (∀ c : Rat, a.type = "volatility" → d.change_pct = some c →
      (((checkOne env a).map (fun r => r.2) = some true) ↔ |c| ≥ a.threshold_pct)) := by
  refine ⟨?_, ?_, ?_⟩
  · intro ht hc
    unfold checkOne
    by_cases hge : a.target ≤ d.price <;> simp [hp, ht, hc, hd, hge]
  · intro ht hc
    unfold checkOne
    by_cases hle : d.price ≤ a.target <;> simp [hp, ht, hc, hd, hle]
  · intro c ht hc
    unfold checkOne
    by_cases hth : a.threshold_pct ≤ |c| <;> simp [hp, ht, hc, hd, hth]

/-- Witness for C7: exact equality triggers on every boundary — price 100
with target 100 for both above and below, and change −5% with threshold 5. -/
theorem trigger_boundaries_inclusive_witness :
    (alertAbove.triggered = false ∧ envAt100.getStock alertAbove.symbol = some stockAt100 ∧
      alertBelow.triggered = false ∧ envAt100.getStock alertBelow.symbol = some stockAt100 ∧
      alertVol.triggered = false ∧ envAt100.getStock alertVol.symbol = some stockAt100) ∧
    (((checkOne envAt100 alertAbove).map (fun r => r.2) = some true) ↔
      stockAt100.price ≥ alertAbove.target) ∧
    (((checkOne envAt100 alertBelow).map (fun r => r.2) = some true) ↔
      stockAt100.price ≤ alertBelow.target) ∧
    (((checkOne envAt100 alertVol).map (fun r => r.2) = some true) ↔
      |(-5 : Rat)| ≥ alertVol.threshold_pct) :=
  ⟨⟨rfl, by decide, rfl, by decide, rfl, by decide⟩,
    ((trigger_boundaries_inclusive envAt100 alertAbove stockAt100 rfl (by decide)).1
      rfl rfl),
    ((trigger_boundaries_inclusive envAt100 alertBelow stockAt100 rfl (by decide)).2.1
      rfl rfl),
    ((trigger_boundaries_inclusive envAt100 alertVol stockAt100 rfl (by decide)).2.2
      (-5) rfl rfl)⟩

/-- Claim C8: absence of data never triggers. A pending alert whose data
source returns nothing is left exactly as it was — still pending, no trigger
fields set — and can never appear in a returned trigger list. -/
theorem absent_data_never_triggers (env : Env) (a : Alert)
    (hp : a.triggered = false) (habs : dataAbsent env a) :
    checkOne env a = some (a, false) ∧
    (∀ store s t, check_alerts env store = some (s, t) → a ∉ t) := by
  constructor
  · rcases habs with ⟨htv, hnone⟩ | ⟨hn, hempty⟩
    · unfold checkOne
      rcases htv with ht | ht <;> simp [hp, ht, hnone]
    · unfold checkOne
      simp [hp, hn, hempty]
  · intro store s t h hmem
    have := checkLoop_trig env store s t h a hmem
    simp [hp] at this

/-- Witness for C8: with an absent fetch and an empty scan, a pending price
alert and a pending news alert stay pending. -/
theorem absent_data_never_triggers_witness :
    (alertNews.triggered = false ∧ dataAbsent envAbsent alertNews) ∧
    checkOne envAbsent alertNews = some (alertNews, false) ∧
    (∀ store s t, check_alerts envAbsent store = some (s, t) → alertNews ∉ t) :=
  ⟨⟨rfl, Or.inr ⟨rfl, rfl⟩⟩,
    (absent_data_never_triggers envAbsent alertNews rfl (Or.inr ⟨rfl, rfl⟩)).1,
    (absent_data_never_triggers envAbsent alertNews rfl (Or.inr ⟨rfl, rfl⟩)).2⟩

/-- Claim C10 (implicit): a volatility alert whose fetched record lacks the
change_pct field is evaluated with the change taken as 0, so with a positive
threshold it never triggers and the direct indexing data["change_pct"] in the
trigger branch is unreachable: the loop body returns normally, unchanged. -/
theorem volatility_missing_change_pct_safe (env : Env) (a : Alert) (d : StockData)
    (htype : a.type = "volatility") (hp : a.triggered = false)
    (hth : 0 < a.threshold_pct) (hd : env.getStock a.symbol = some d)
    (hc : d.change_pct = none) :
    checkOne env a = some (a, false) := by
  unfold checkOne
  have hnot : ¬(a.threshold_pct ≤ |(0 : Rat)|) := by
    simpa using not_le.mpr hth
  simp [hp, htype, hd, hc, hnot]
  exact hth

/-- Witness for C10 at a record without change_pct and threshold 5. -/
theorem volatility_missing_change_pct_safe_witness :
    (alertVol.type = "volatility" ∧ alertVol.triggered = false ∧
      (0 : Rat) < alertVol.threshold_pct ∧
      envNoChange.getStock alertVol.symbol = some stockNoChange ∧
      stockNoChange.change_pct = none) ∧
    checkOne envNoChange alertVol = some (alertVol, false) :=
  ⟨⟨rfl, rfl, by decide, by decide, rfl⟩,
    volatility_missing_change_pct_safe envNoChange alertVol stockNoChange
      rfl rfl (by decide) (by decide) rfl⟩

/-- Claim C9: rejected mutations are no-ops on the store. An add with a
condition outside above/below returns the validation message and leaves the
stored collection untouched (so its size and ids are unchanged); removing an
id that no stored alert carries reports not-found and also leaves the
collection untouched. -/
theorem rejected_mutations_noop (symbol condition : String) (target : Rat)
    (now : String) (alert_id : Int) (store : List Alert) :
    (¬(condition = "above" ∨ condition = "below") →
      add_price_alert symbol condition target now store = (store, invalid_condition_msg)) ∧
    ((∀ a ∈ store, a.id ≠ alert_id) →
      remove_alert alert_id store = (store, "Alert #" ++ toString alert_id ++ " not found")) := by
  constructor
  · intro h
    unfold add_price_alert
    rw [if_pos h]
  · intro h
    induction store with
    | nil => rfl
    | cons a rest ih =>
      have ha : a.id ≠ alert_id := h a (by simp)
      have hrest := ih (fun x hx => h x (by simp [hx]))
      simp only [remove_alert, if_neg ha, hrest]

/-- Witness for C9: a bad condition and a missing id against a one-alert
store, both leaving the store as it was. -/
theorem rejected_mutations_noop_witness :
    (¬(("sideways" : String) = "above" ∨ ("sideways" : String) = "below") ∧
      (∀ a ∈ [alertAbove], a.id ≠ (7 : Int))) ∧
    add_price_alert ("AAPL") ("sideways") 100 ("2026-01-01") [alertAbove]
      = ([alertAbove], invalid_condition_msg) ∧
    remove_alert 7 [alertAbove] = ([alertAbove], "Alert #" ++ toString (7 : Int) ++ " not found") :=
  ⟨⟨by decide, by decide⟩,
    (rejected_mutations_noop ("AAPL") ("sideways") 100 ("2026-01-01") 7 [alertAbove]).1
      (by decide),
    (rejected_mutations_noop ("AAPL") ("sideways") 100 ("2026-01-01") 7 [alertAbove]).2
      (by decide)⟩

/- ### Helper lemmas about truncation -/

theorem mk_append_toList (l : List Char) (s : String) :
    (String.mk l ++ s).toList = l ++ s.toList := rfl

theorem mk_append_length (l : List Char) (s : String) :
    (String.mk l ++ s).length = l.length + s.length :=
  List.length_append l s.data

/-- Python rfind contract, found case: the reported index holds a newline. -/
theorem rfindNewline_get (l : List Char) (h : 0 ≤ rfindNewline l) :
    l.get? (rfindNewline l).toNat = some '\n' := by
  induction l with
  | nil => simp [rfindNewline] at h
  | cons c rest ih =>
    by_cases hr : 0 ≤ rfindNewline rest
    · have he : rfindNewline (c :: rest) = rfindNewline rest + 1 := by
        simp [rfindNewline, hr]
      rw [he]
      have ht : (rfindNewline rest + 1).toNat = (rfindNewline rest).toNat + 1 := by omega
      rw [ht]
      simpa using ih hr
    · by_cases hc : c = '\n'
      · have he : rfindNewline (c :: rest) = 0 := by simp [rfindNewline, hr, hc]
        rw [he]
        simp [hc]
      · have he : rfindNewline (c :: rest) = -1 := by simp [rfindNewline, hr, hc]
        rw [he] at h
        omega

/-- Shape of the truncation result for an over-long text. -/
theorem truncate_eq_of_long (text : String) (max_length : Nat)
    (hlen : max_length < text.length) :
    truncate_for_telegram text max_length =
      String.mk
        (if ((max_length / 2 : Nat) : Int)
            < rfindNewline (pySliceTo text.toList ((max_length : Int) - 30)) then
          pySliceTo (pySliceTo text.toList ((max_length : Int) - 30))
            (rfindNewline (pySliceTo text.toList ((max_length : Int) - 30)))
        else pySliceTo text.toList ((max_length : Int) - 30)) ++ truncation_marker := by
  rw [truncate_for_telegram, if_neg (not_le.mpr hlen)]

/- ### Claim C6 -/

/-- Claim C6 counterexample: the 4097-character single-line text exceeds the
4096 limit, yet its truncation is not cut at a line boundary — there is no
decomposition of the original as kept-prefix ++ newline ++ rest matching the
result, because the text contains no newline at all while the result keeps a
non-empty prefix. The claim that the kept prefix always ends at a line
boundary is therefore false on this input. -/
theorem truncate_midline_counterexample :
    telegram_max_length < longLine.length ∧
    ¬(∃ P rest, (truncate_for_telegram longLine telegram_max_length).toList
        = P ++ truncation_marker.toList ∧ longLine.toList = P ++ '\n' :: rest) := by
  have hlen : longLine.length = 4097 := by
    show (List.replicate 4097 'a').length = 4097
    rw [List.length_replicate]
  constructor
  · rw [hlen]
    decide
  · rintro ⟨P, rest, -, h2⟩
    have hmem : '\n' ∈ longLine.toList := by
      rw [h2]
      exact List.mem_append_right P (List.mem_cons_self _ _)
    have : ('\n' : Char) = 'a' := List.eq_of_mem_replicate hmem
    exact absurd this (by decide)

/-- Claim C6 (amended): text within the limit is returned unchanged; an
over-long text is truncated to at most the limit, the result ends with the
truncation marker, and the kept prefix ends at a line boundary exactly when
the first max_length − 30 characters contain a newline past position
max_length / 2 — otherwise the cut is mid-line at exactly max_length − 30
characters. -/
theorem truncate_for_telegram_policy (text : String) (max_length : Nat)
    (hmax : 30 ≤ max_length) :
    (text.length ≤ max_length → truncate_for_telegram text max_length = text) ∧
    (max_length < text.length →
      (truncate_for_telegram text max_length).length ≤ max_length ∧
      truncation_marker.toList.IsSuffix (truncate_for_telegram text max_length).toList ∧
      (((max_length / 2 : Nat) : Int)
          < rfindNewline (text.toList.take (max_length - 30)) →
        ∃ P rest, (truncate_for_telegram text max_length).toList
            = P ++ truncation_marker.toList ∧ text.toList = P ++ '\n' :: rest) ∧
      (rfindNewline (text.toList.take (max_length - 30))
          ≤ ((max_length / 2 : Nat) : Int) →
        truncate_for_telegram text max_length
          = String.mk (text.toList.take (max_length - 30)) ++ truncation_marker)) := by
  have hpos : (0 : Int) ≤ (max_length : Int) - 30 := by omega
  have hk : ((max_length : Int) - 30).toNat = max_length - 30 := by omega
  have htr : pySliceTo text.toList ((max_length : Int) - 30)
      = text.toList.take (max_length - 30) := by
    rw [pySliceTo, if_pos hpos, hk]
  constructor
  · intro hle
    rw [truncate_for_telegram, if_pos hle]
  · intro hlen
    have heq := truncate_eq_of_long text max_length hlen
    rw [htr] at heq
    have htrlen : (text.toList.take (max_length - 30)).length ≤ max_length - 30 :=
      List.length_take_le _ _
    by_cases hcut : ((max_length / 2 : Nat) : Int)
        < rfindNewline (text.toList.take (max_length - 30))
    · rw [if_pos hcut] at heq
      have h0 : 0 ≤ rfindNewline (text.toList.take (max_length - 30)) := by omega
      have hslice : pySliceTo (text.toList.take (max_length - 30))
          (rfindNewline (text.toList.take (max_length - 30)))
          = (text.toList.take (max_length - 30)).take
              (rfindNewline (text.toList.take (max_length - 30))).toNat := by
        rw [pySliceTo, if_pos h0]
      rw [hslice] at heq
      have hget := rfindNewline_get (text.toList.take (max_length - 30)) h0
      obtain ⟨hklt, hgetv⟩ := List.get?_eq_some.mp hget
      have hkle : (rfindNewline (text.toList.take (max_length - 30))).toNat
          ≤ max_length - 30 := le_of_lt (lt_of_lt_of_le hklt htrlen)
      have hklt30 : (rfindNewline (text.toList.take (max_length - 30))).toNat
          < max_length - 30 := lt_of_lt_of_le hklt htrlen
      have hP : (text.toList.take (max_length - 30)).take
          (rfindNewline (text.toList.take (max_length - 30))).toNat
          = text.toList.take (rfindNewline (text.toList.take (max_length - 30))).toNat := by
        rw [List.take_take, min_eq_left hkle]
      have hgtext : text.toList.get? (rfindNewline (text.toList.take (max_length - 30))).toNat
          = some '\n' := by
        rw [← List.get?_take hklt30]
        exact hget
      obtain ⟨hklt2, hgetv2⟩ := List.get?_eq_some.mp hgtext
      refine ⟨?_, ?_, ?_, ?_⟩
      · rw [heq, mk_append_length]
        have h17 : truncation_marker.length = 17 := by decide
        rw [h17]
        have := List.length_take_le
          (rfindNewline (text.toList.take (max_length - 30))).toNat
          (text.toList.take (max_length - 30))
        omega
      · exact ⟨_, (by rw [heq, mk_append_toList])⟩
      · intro _
        refine ⟨(text.toList.take (max_length - 30)).take
            (rfindNewline (text.toList.take (max_length - 30))).toNat,
          text.toList.drop ((rfindNewline (text.toList.take (max_length - 30))).toNat + 1),
          by rw [heq, mk_append_toList], ?_⟩
        rw [hP]
        conv_lhs => rw [← List.take_append_drop
          (rfindNewline (text.toList.take (max_length - 30))).toNat text.toList]
        congr 1
        rw [List.drop_eq_getElem_cons hklt2]
        congr 1
      · intro hle
        exact absurd hcut (not_lt.mpr hle)
    · rw [if_neg hcut] at heq
      refine ⟨?_, ?_, ?_, ?_⟩
      · rw [heq, mk_append_length]
        have h17 : truncation_marker.length = 17 := by decide
        rw [h17]
        omega
      · exact ⟨_, (by rw [heq, mk_append_toList])⟩
      · intro hc
        exact absurd hc hcut
      · intro _
        exact heq

/-- Witness for C6 (amended): instantiation at a short two-line text and the
default limit. -/
theorem truncate_for_telegram_policy_witness :
    (30 ≤ telegram_max_length) ∧
    (("ok" : String).length ≤ telegram_max_length →
      truncate_for_telegram ("ok") telegram_max_length = ("ok" : String)) :=
  ⟨by decide, (truncate_for_telegram_policy ("ok") telegram_max_length (by decide)).1⟩

/- ### Helper lemmas about the orchestrator -/

/-- A builder that terminates gives `_run_section` a result. -/
theorem run_section_isSome (n : String) (b : BuilderBehavior) (h : b.cost.isSome) :
    (run_section n b).isSome := by
  rcases Option.isSome_iff_exists.mp h with ⟨c, hc⟩
  simp only [run_section, hc]
  split
  · cases hb : b.outcome <;> simp [hb]
  · simp

/-- The placeholder string starts with an opening bracket. -/
theorem placeholder_toList (n e : String) :
    ("[" ++ n ++ " unavailable: " ++ e ++ "]").toList
      = '[' :: (n ++ " unavailable: " ++ e ++ "]").toList := rfl

/-- The timed-out placeholder string starts with an opening bracket. -/
theorem timeout_toList (n : String) :
    ("[" ++ n ++ " timed out]").toList = '[' :: (n ++ " timed out]").toList := rfl

/-- Stripping a string that starts with a non-whitespace bracket never yields
the empty string. -/
theorem pyStrip_bracket (xs : List Char) :
    (pyStrip ('[' :: xs)).isEmpty = false := by
  have h1 : ('[' :: xs).dropWhile Char.isWhitespace = '[' :: xs := by
    rw [List.dropWhile_cons, if_neg (by decide)]
  have h2 : (('[' :: xs).reverse.dropWhile Char.isWhitespace) ≠ [] := by
    intro hnil
    have := (List.dropWhile_eq_nil_iff).mp hnil '['
      (List.mem_reverse.mpr (List.mem_cons_self _ _))
    exact absurd this (by decide)
  rw [pyStrip, h1]
  cases hv : ('[' :: xs).reverse.dropWhile Char.isWhitespace with
  | nil => exact absurd hv h2
  | cons y ys => simp

/-- The section list of a run whose builders all terminate: the outputs of the builders, in registration order, with blank sections filtered out. -/
theorem briefing_sections_eq (builders : List (String × BuilderBehavior))
    (hall : ∀ p ∈ builders, (p.2).cost.isSome) :
    briefing_sections builders =
      some ((builders.map (fun p => (run_section p.1 p.2).getD (""))).filter
        (fun r => !(pyStrip r.toList).isEmpty)) := by
  induction builders with
  | nil => rfl
  | cons p rest ih =>
    obtain ⟨n, b⟩ := p
    have hs := run_section_isSome n b (hall (n, b) (by simp))
    rcases Option.isSome_iff_exists.mp hs with ⟨r, hr⟩
    have hrest := ih (fun q hq => hall q (by simp [hq]))
    simp only [briefing_sections, hr, hrest, List.map_cons, Option.getD_some,
      List.filter_cons]
    cases he : (pyStrip r.toList).isEmpty <;> simp [he]

/-- A section whose content is blank contributes nothing at all to the
composite: the section list is the one computed without that builder. -/
theorem briefing_drop_empty (pre post : List (String × BuilderBehavior))
    (n : String) (b : BuilderBehavior) (r : String)
    (hr : run_section n b = some r) (he : (pyStrip r.toList).isEmpty = true) :
    briefing_sections (pre ++ (n, b) :: post) = briefing_sections (pre ++ post) := by
  induction pre with
  | nil =>
    have he2 : pyStrip r.toList = [] := by
      cases hv : pyStrip r.toList
      · rfl
      · rw [hv] at he
        simp at he
    have he3 : pyStrip r.data = [] := he2
    simp only [List.nil_append, briefing_sections, hr]
    cases hpost : briefing_sections post <;> simp [he, he2, he3]
  | cons q pre ih =>
    obtain ⟨qn, qb⟩ := q
    have ih2 : briefing_sections (pre.append ((n, b) :: post))
        = briefing_sections (pre.append post) := ih
    simp only [List.cons_append, briefing_sections]
    rw [ih2]

/- ### Claims C2 and C4 -/

/-- Claim C2 (the code violates it): `_run_section` does not abandon a slow
builder at the SECTION_TIMEOUT bound. A builder running 60 s is recorded as
the timed-out placeholder but still costs the caller the full 60 s, because
the `with` block joins the worker on exit; a never-terminating builder makes
`_run_section` — and hence build_briefing — hang forever instead of
returning the placeholder within the bound. -/
theorem run_section_wait_exceeds_bound :
    run_section ("Indices") ⟨some 60, Except.ok ("slow")⟩ = some ("[Indices timed out]") ∧
    run_section_elapsed ⟨some 60, Except.ok ("slow")⟩ = some 60 ∧
    ¬((60 : Nat) ≤ SECTION_TIMEOUT) ∧
    run_section ("News") ⟨none, Except.ok ("DATA")⟩ = none ∧
    run_section_elapsed ⟨none, Except.ok ("DATA")⟩ = none :=
  ⟨by decide, rfl, by decide, rfl, rfl⟩

/-- Claim C4: orchestrator isolation, ordering and empty-drop. With every
builder terminating, build_briefing returns a composite; the section list is
the outputs of the builders in registration order with blank sections dropped; a
builder that raises within the timeout contributes its diagnostic placeholder
with the error message embedded; and a builder with blank content contributes
nothing at all — the section list equals the one built without it. -/
theorem build_briefing_isolation (header : String)
    (builders : List (String × BuilderBehavior))
    (hall : ∀ p ∈ builders, (p.2).cost.isSome) :
    (build_briefing header builders).isSome ∧
    briefing_sections builders =
      some ((builders.map (fun p => (run_section p.1 p.2).getD (""))).filter
        (fun r => !(pyStrip r.toList).isEmpty)) ∧
    (∀ n b c e, (n, b) ∈ builders → b.cost = some c → c ≤ SECTION_TIMEOUT →
      b.outcome = Except.error e →
      ("[" ++ n ++ " unavailable: " ++ e ++ "]")
        ∈ ((builders.map (fun p => (run_section p.1 p.2).getD (""))).filter
            (fun r => !(pyStrip r.toList).isEmpty))) ∧
    (∀ pre post n b r, builders = pre ++ (n, b) :: post → run_section n b = some r →
      (pyStrip r.toList).isEmpty = true →
      briefing_sections builders = briefing_sections (pre ++ post)) := by
  have hsec := briefing_sections_eq builders hall
  refine ⟨?_, hsec, ?_, ?_⟩
  · rw [build_briefing, hsec]
    simp
  · intro n b c e hmem hcost hto herr
    have hrun : run_section n b = some ("[" ++ n ++ " unavailable: " ++ e ++ "]") := by
      simp only [run_section, hcost, herr]
      rw [if_pos hto]
    refine List.mem_filter.mpr ⟨?_, ?_⟩
    · exact List.mem_map.mpr ⟨(n, b), hmem, by rw [hrun, Option.getD_some]⟩
    · rw [placeholder_toList, pyStrip_bracket]
      rfl
  · intro pre post n b r hsplit hr he
    rw [hsplit]
    exact briefing_drop_empty pre post n b r hr he

/-- Witness for C4 at the sample builder list: one raising builder, one slow
builder, one DATA builder, one blank builder — the composite keeps the two
placeholders and DATA, in registration order, and drops the blank one. -/
theorem build_briefing_isolation_witness :
    (∀ p ∈ buildersSample, (p.2).cost.isSome) ∧
    (build_briefing ("Morning Finance Brief") buildersSample).isSome ∧
    briefing_sections buildersSample
      = some [("[Forex unavailable: boom]" : String), ("[Indices timed out]"), ("DATA")] :=
  ⟨by decide,
    (build_briefing_isolation ("Morning Finance Brief") buildersSample (by decide)).1,
    by decide⟩

/- ### Claim C3 -/

/-- Claim C3 counterexample: at time 1000 the AAPL_5d entry written at time 0
is outside the 300 s fresh TTL (so a live fetch is attempted) but well within
the 86400 s stale maximum; the live fetch fails by returning no data (empty
history), yet _fetch_ticker returns absent instead of the stale-tolerable
cached value. The claim that every failed live fetch falls back to the stale
cache is therefore false on this input: only the raising path does. -/
theorem fetch_ticker_stale_counterexample :
    cache_get cacheAAPL 1000 ("AAPL_5d") market_data_ttl = none ∧
    envEmptyHist.upstream ("AAPL") ("5d") = Except.ok [] ∧
    cache_get cacheAAPL 1000 ("AAPL_5d") stale_cache_max_age = some sampleRecord ∧
    (_fetch_ticker envEmptyHist cacheAAPL ("AAPL") ("5d")).fst = none ∧
    (_fetch_ticker envEmptyHist cacheAAPL ("AAPL") ("5d")).fst ≠ some sampleRecord :=
  ⟨by decide, rfl, by decide, by decide, by decide⟩

/-- Claim C3 (amended): after a fresh-cache miss, when the live fetch raises,
_fetch_ticker returns exactly the stale-tolerable cache value — the cached
record when one exists within stale_cache_max_age, absent only when none
does; but when the fetch merely returns no data (empty history),
_fetch_ticker returns absent regardless of the cache. -/
theorem fetch_ticker_stale_fallback (env : FetchEnv) (cache : CacheState)
    (symbol period : String)
    (hmiss : cache_get cache env.now (symbol ++ "_" ++ period) market_data_ttl = none) :
    (env.upstream symbol period = Except.error () →
      (_fetch_ticker env cache symbol period).fst
        = cache_get cache env.now (symbol ++ "_" ++ period) stale_cache_max_age) ∧
    (env.upstream symbol period = Except.ok [] →
      (_fetch_ticker env cache symbol period).fst = none) := by
  constructor
  · intro herr
    simp only [_fetch_ticker, hmiss, herr]
  · intro hok
    simp only [_fetch_ticker, hmiss, hok, List.getLast?]

/-- Witness for C3 (amended): a raising upstream with a stale-but-tolerable
cache entry serves the cached record. -/
theorem fetch_ticker_stale_fallback_witness :
    cache_get cacheAAPL envRaise.now ("AAPL" ++ "_" ++ "5d") market_data_ttl = none ∧
    (_fetch_ticker envRaise cacheAAPL ("AAPL") ("5d")).fst
      = cache_get cacheAAPL envRaise.now ("AAPL" ++ "_" ++ "5d") stale_cache_max_age :=
  ⟨by decide,
    (fetch_ticker_stale_fallback envRaise cacheAAPL ("AAPL") ("5d") (by decide)).1 rfl⟩

end OakleyFinance
